import Mathlib

/-!
Verification of the `msh` shell (src/msh/msh.c): a shallow embedding of the
read-parse-resolve-execute loop body, and theorems about the tokenizer,
built-in dispatch, path resolution, redirection handling in the child, and
per-iteration resource cleanup.

OS primitives (`access`, `open`, `chdir`, `fork`, `execv`) are modelled as
boolean oracles in an `Env` record; one loop iteration is denoted by a pure
function from the environment, the current working directory and the token
sequence to a record of the iteration's observable effects.
-/

namespace Msh

/-- MAX_COMMAND_SIZE from msh.c. -/
def MAX_COMMAND_SIZE : Nat := 255

/-- MAX_NUM_ARGUMENTS from msh.c: the token array has 12 slots, one reserved
for the NULL terminator, so at most 11 tokens are collected. -/
def MAX_NUM_ARGUMENTS : Nat := 12

/-- The WHITESPACE delimiter set `" \t\n"` from msh.c. -/
def isWS (c : Char) : Bool := c = ' ' || c = '\t' || c = '\n'

/-- One call to `strsep(&working_string, WHITESPACE)`: returns the fragment up
to the first delimiter, and the remaining string after that delimiter
(`none` models `working_string` being set to NULL when no delimiter is left,
so that the next `strsep` call returns NULL and the loop stops). -/
def strsep : List Char → List Char × Option (List Char)
  | [] => ([], none)
  | c :: cs =>
    if isWS c then ([], some cs)
    else
      let p := strsep cs
      (c :: p.1, p.2)

/-- Measure for the tokenizing loop: the remaining string, NULL counting as
smaller than every real string. -/
def wsMeasure : Option (List Char) → Nat
  | none => 0
  | some s => s.length + 1

theorem strsep_rest_lt (s : List Char) : wsMeasure (strsep s).2 < s.length + 1 := by
  induction s with
  | nil => simp [strsep, wsMeasure]
  | cons c cs ih =>
    by_cases h : isWS c = true
    · simp [strsep, h, wsMeasure]
    · simp only [strsep, h, Bool.false_eq_true, if_false, List.length_cons]
      exact Nat.lt_trans ih (Nat.lt_succ_self _)

/-- The token-collecting loop of msh.c lines 109-118: repeatedly call
`strsep`; stop when it returns NULL or `token_count` has reached
`MAX_NUM_ARGUMENTS - 1`; store each non-empty fragment (a `strdup` in the C
code).  `acc` holds the stored tokens in reverse. -/
def tokenizeLoop (ws : Option (List Char)) (count : Nat) (acc : List String) :
    List String :=
  match ws with
  | none => acc.reverse
  | some s =>
    if count < MAX_NUM_ARGUMENTS - 1 then
      if 0 < (strsep s).1.length then
        tokenizeLoop (strsep s).2 (count + 1) (String.mk (strsep s).1 :: acc)
      else tokenizeLoop (strsep s).2 count acc
    else acc.reverse
termination_by wsMeasure ws
decreasing_by
  · simpa [wsMeasure] using strsep_rest_lt s
  · simpa [wsMeasure] using strsep_rest_lt s

/-- The tokenizer applied to a (newline-stripped) input line: msh.c lines
93-119.  The NULL sentinel written at `token[token_count]` corresponds to
the end of the returned list. -/
def tokenize (line : List Char) : List String :=
  tokenizeLoop (some line) 0 []

/-- Spec-side definition (for the tokenizer-correctness claim): the
whitespace-delimited fragments of a line, adjacent delimiters yielding
zero-length fragments. -/
def specSplit : List Char → List (List Char)
  | [] => [[]]
  | c :: cs =>
    if isWS c then [] :: specSplit cs
    else
      match specSplit cs with
      | [] => [[c]]
      | f :: fs => (c :: f) :: fs

theorem specSplit_ne_nil (s : List Char) : specSplit s ≠ [] := by
  cases s with
  | nil => simp [specSplit]
  | cons c cs =>
    by_cases h : isWS c = true
    · simp [specSplit, h]
    · simp only [specSplit, h, Bool.false_eq_true, if_false]
      cases specSplit cs <;> simp

/-- `strsep` computes the head of `specSplit`, and leaves as remainder a
string whose `specSplit` gives the tail. -/
theorem specSplit_eq_strsep (s : List Char) :
    specSplit s =
      (strsep s).1 ::
        (match (strsep s).2 with
         | none => []
         | some r => specSplit r) := by
  induction s with
  | nil => simp [specSplit, strsep]
  | cons c cs ih =>
    by_cases h : isWS c = true
    · simp [specSplit, strsep, h]
    · simp only [specSplit, strsep, h, Bool.false_eq_true, if_false]
      rw [ih]

theorem tokenizeLoop_none (count : Nat) (acc : List String) :
    tokenizeLoop none count acc = acc.reverse := by
  rw [tokenizeLoop]

/-- Generalized invariant for the tokenizing loop: from a remaining string
`s`, a running count and an accumulator, the loop appends the first
`MAX_NUM_ARGUMENTS - 1 - count` non-empty fragments of `s`. -/
theorem tokenizeLoop_spec (n : Nat) :
    ∀ s : List Char, s.length ≤ n → ∀ (count : Nat) (acc : List String),
      tokenizeLoop (some s) count acc =
        acc.reverse ++
          (((specSplit s).filter (fun f => f ≠ [])).map (fun f => String.mk f)).take
            (MAX_NUM_ARGUMENTS - 1 - count) := by
  induction n with
  | zero =>
    intro s hs count acc
    have hs0 : s = [] := List.length_eq_zero.mp (Nat.le_zero.mp hs)
    subst hs0
    rw [tokenizeLoop]
    simp [strsep, specSplit, tokenizeLoop_none]
  | succ n ih =>
    intro s hs count acc
    rw [tokenizeLoop, specSplit_eq_strsep s]
    by_cases hc : count < MAX_NUM_ARGUMENTS - 1
    · have hcount : MAX_NUM_ARGUMENTS - 1 - count = (MAX_NUM_ARGUMENTS - 1 - (count + 1)) + 1 := by
        simp only [MAX_NUM_ARGUMENTS] at hc ⊢
        omega
      cases hrest : (strsep s).2 with
      | none =>
        by_cases hf : 0 < (strsep s).1.length
        · have hfne : (strsep s).1 ≠ [] := List.ne_nil_of_length_pos hf
          simp [hc, hf, hrest, tokenizeLoop_none, hcount, hfne]
        · have hfe : (strsep s).1 = [] := List.length_eq_zero.mp (Nat.eq_zero_of_not_pos hf)
          simp [hc, hf, hrest, tokenizeLoop_none, hfe]
      | some r =>
        have hr : r.length ≤ n := by
          have := strsep_rest_lt s
          rw [hrest] at this
          simp only [wsMeasure] at this
          omega
        by_cases hf : 0 < (strsep s).1.length
        · have hfne : (strsep s).1 ≠ [] := List.ne_nil_of_length_pos hf
          rw [if_pos hc, if_pos hf, ih r hr (count + 1) (String.mk (strsep s).1 :: acc)]
          simp [hfne, hcount]
        · have hfe : (strsep s).1 = [] := List.length_eq_zero.mp (Nat.eq_zero_of_not_pos hf)
          rw [if_pos hc, if_neg hf, ih r hr count acc]
          simp [hfe]
    · have hcount : MAX_NUM_ARGUMENTS - 1 - count = 0 := by
        simp only [MAX_NUM_ARGUMENTS] at hc ⊢
        omega
      simp [hc, hcount]

/-! ## Execution model

The OS primitives used by msh.c are modelled as boolean oracles.  A
destination for a child's standard output / standard error is either the
interpreter's original terminal streams or an opened file. -/

/-- Where a stream of the child points: the interpreter's original
stdout/stderr, or a file opened by the redirection code. -/
inductive Dest where
  | terminal : Dest
  | file : String → Dest
deriving DecidableEq

/-- Linux numeric value of `O_RDWR`. -/
def O_RDWR : Nat := 2

/-- Linux numeric value of `O_CREAT` (octal 100). -/
def O_CREAT : Nat := 64

/-- Linux numeric value of `O_TRUNC` (octal 1000). -/
def O_TRUNC : Nat := 512

/-- Linux numeric value of `S_IRUSR` (octal 400). -/
def S_IRUSR : Nat := 256

/-- Linux numeric value of `S_IWUSR` (octal 200). -/
def S_IWUSR : Nat := 128

/-- A call to `open(name, flags, mode)` recorded by the model. -/
structure OpenCall where
  name : String
  flags : Nat
  mode : Nat
deriving DecidableEq

/-- Oracles for the OS primitives msh.c calls: `access(p, X_OK) == 0` is
`isExec p`; `open(f, ...) >= 0` is `openOk f`; `chdir(p) == 0` is
`chdirOk p`; `fork() != -1` is `forkOk`; `execv(p, argv)` not returning is
`execOk p`. -/
structure Env where
  isExec : String → Bool
  openOk : String → Bool
  chdirOk : String → Bool
  forkOk : Bool
  execOk : String → Bool

/-- Result of the child's redirection scan (msh.c lines 213-247): either no
`>` token was seen, or the command aborts (error + `exit(1)`), or stdout and
stderr are redirected to `target` and the argument vector is cut down to
`argv` (the tokens strictly before the `>`). -/
inductive RedirResult where
  | noRedir : RedirResult
  | malformed : RedirResult
  | redirect : List String → String → RedirResult
deriving DecidableEq

/-- The scan loop of msh.c lines 215-247: walk the NULL-terminated token
array; at the first `">"` token, inspect the tokens after it
(`token[i+1] == NULL` or `token[i+2] != NULL` aborts; otherwise
`token[i+1]` is the target and `token[i] = NULL` trims the argument
vector, then `break`).  `acc` holds the tokens already passed, reversed. -/
def redirScan (acc : List String) : List String → RedirResult
  | [] => .noRedir
  | t :: rest =>
    if t = ">" then
      match rest with
      | [] => .malformed
      | [f] => .redirect acc.reverse f
      | _ => .malformed
    else redirScan (t :: acc) rest

/-- Observable behaviour of the child process (msh.c lines 210-257):
which `open` calls it made, where its stdout/stderr point, the `execv`
invocation it reached (path and argument vector), its own exit code
(`none` when `execv` succeeded and the process image was replaced), and
the destinations of the error-message writes it performed. -/
structure ChildRes where
  openCalls : List OpenCall
  outDest : Dest
  errDest : Dest
  exec : Option (String × List String)
  code : Option Nat
  errWrites : List Dest
deriving DecidableEq

/-- The child branch of msh.c (lines 210-257): run the redirection scan,
then `execv(cmd_path, token)`; on `execv` failure write the error message
(to the possibly-redirected stderr) and `exit(1)`. -/
def runChild (env : Env) (cmdPath : String) (tokens : List String) : ChildRes :=
  match redirScan [] tokens with
  | .malformed =>
    { openCalls := [], outDest := .terminal, errDest := .terminal,
      exec := none, code := some 1, errWrites := [.terminal] }
  | .noRedir =>
    if env.execOk cmdPath then
      { openCalls := [], outDest := .terminal, errDest := .terminal,
        exec := some (cmdPath, tokens), code := none, errWrites := [] }
    else
      { openCalls := [], outDest := .terminal, errDest := .terminal,
        exec := some (cmdPath, tokens), code := some 1, errWrites := [.terminal] }
  | .redirect argv f =>
    if env.openOk f then
      if env.execOk cmdPath then
        { openCalls := [⟨f, O_RDWR ||| O_CREAT ||| O_TRUNC, S_IRUSR ||| S_IWUSR⟩],
          outDest := .file f, errDest := .file f,
          exec := some (cmdPath, argv), code := none, errWrites := [] }
      else
        { openCalls := [⟨f, O_RDWR ||| O_CREAT ||| O_TRUNC, S_IRUSR ||| S_IWUSR⟩],
          outDest := .file f, errDest := .file f,
          exec := some (cmdPath, argv), code := some 1, errWrites := [.file f] }
    else
      { openCalls := [], outDest := .terminal, errDest := .terminal,
        exec := none, code := some 1, errWrites := [.terminal] }

/-- The fixed search directories of msh.c line 169, in source order. -/
def searchPaths : List String := ["/bin/", "/usr/bin/", "/usr/local/bin/", "./"]

/-- The resolution loop of msh.c lines 173-182: build each candidate path by
concatenation and stop (`found = 1; break`) at the first one for which
`access(cmd_path, X_OK) == 0`. -/
def resolveLoop (isExec : String → Bool) (cmd : String) : List String → Option String
  | [] => none
  | d :: ds =>
    if isExec (d ++ cmd) then some (d ++ cmd) else resolveLoop isExec cmd ds

/-- Executable resolution for a command name over the four fixed directories. -/
def resolve (isExec : String → Bool) (cmd : String) : Option String :=
  resolveLoop isExec cmd searchPaths

/-- Observable behaviour of one iteration of the main loop on an
already-tokenized line (msh.c lines 121-268), seen from the parent:
whether the whole shell exits (`exit`/`quit`), whether the parent wrote
the error message, the `chdir` calls it made and the resulting working
directory, the resolution result for an external command, whether `fork`
was called, whether the parent did `waitpid` on this child, the child's
behaviour when one was created, and which per-iteration heap allocations
were released (`head_ptr`, the `strdup`-ed working string; and the
`strdup`-ed token strings). -/
structure IterOutcome where
  shellExit : Option Nat := none
  errReported : Bool := false
  chdirCalls : List String := []
  newCwd : String
  resolvedPath : Option String := none
  forkCalled : Bool := false
  waitedChild : Bool := false
  child : Option ChildRes := none
  freedHead : Bool := false
  freedTokens : Bool := false
deriving DecidableEq

/-- The loop body of msh.c from the `token_count == 0` check (line 121) to
the end-of-iteration frees (lines 264-268), as a function of the token
sequence.  Branches, in source order: empty token list (line 121),
`exit`/`quit` (128), `cd` (146), path resolution (169), resolution
failure (185), `fork` (196) and its failure (199), child (210) and parent
wait (258), final frees (264). -/
def dispatch (env : Env) (cwd : String) (tokens : List String) : IterOutcome :=
  match tokens with
  | [] =>
    { newCwd := cwd, freedHead := true, freedTokens := true }
  | t0 :: rest =>
    if t0 = "exit" ∨ t0 = "quit" then
      if rest = [] then
        { newCwd := cwd, shellExit := some 0, freedHead := true, freedTokens := false }
      else
        { newCwd := cwd, errReported := true, freedHead := false, freedTokens := true }
    else if t0 = "cd" then
      match rest with
      | [p] =>
        if env.chdirOk p then
          { newCwd := p, chdirCalls := [p], freedHead := true, freedTokens := true }
        else
          { newCwd := cwd, chdirCalls := [p], errReported := true,
            freedHead := true, freedTokens := true }
      | _ =>
        { newCwd := cwd, errReported := true, freedHead := true, freedTokens := true }
    else
      match resolve env.isExec t0 with
      | none =>
        { newCwd := cwd, errReported := true, freedHead := true, freedTokens := true }
      | some p =>
        if env.forkOk then
          { newCwd := cwd, resolvedPath := some p, forkCalled := true,
            waitedChild := true, child := some (runChild env p (t0 :: rest)),
            freedHead := true, freedTokens := true }
        else
          { newCwd := cwd, resolvedPath := some p, forkCalled := true,
            errReported := true, freedHead := true, freedTokens := true }

/-- The `open` calls performed during an iteration (they can only happen
inside a forked child). -/
def iterOpens (o : IterOutcome) : List OpenCall :=
  match o.child with
  | none => []
  | some c => c.openCalls

theorem redirScan_missing (pre : List String) (hpre : ">" ∉ pre) :
    ∀ acc, redirScan acc (pre ++ [">"]) = .malformed := by
  induction pre with
  | nil => intro acc; simp [redirScan]
  | cons p pre ih =>
    intro acc
    have hp : ¬(p = ">") := fun h => hpre (by simp [h])
    have hpre' : ">" ∉ pre := fun h => hpre (List.mem_cons_of_mem _ h)
    simp [redirScan, hp, ih hpre']

theorem redirScan_target (pre : List String) (f : String) (hpre : ">" ∉ pre) :
    ∀ acc, redirScan acc (pre ++ [">", f]) = .redirect (acc.reverse ++ pre) f := by
  induction pre with
  | nil => intro acc; simp [redirScan]
  | cons p pre ih =>
    intro acc
    have hp : ¬(p = ">") := fun h => hpre (by simp [h])
    have hpre' : ">" ∉ pre := fun h => hpre (List.mem_cons_of_mem _ h)
    simp [redirScan, hp, ih hpre']

theorem redirScan_extra (pre : List String) (a b : String) (post : List String)
    (hpre : ">" ∉ pre) :
    ∀ acc, redirScan acc (pre ++ ">" :: a :: b :: post) = .malformed := by
  induction pre with
  | nil => intro acc; simp [redirScan]
  | cons p pre ih =>
    intro acc
    have hp : ¬(p = ">") := fun h => hpre (by simp [h])
    have hpre' : ">" ∉ pre := fun h => hpre (List.mem_cons_of_mem _ h)
    simp [redirScan, hp, ih hpre']

/-- The child field of an iteration, by branch. -/
theorem dispatch_child_eq (env : Env) (cwd t0 : String) (rest : List String) :
    (dispatch env cwd (t0 :: rest)).child =
      (if t0 = "exit" ∨ t0 = "quit" then none
       else if t0 = "cd" then none
       else
         match resolve env.isExec t0 with
         | none => none
         | some p => if env.forkOk then some (runChild env p (t0 :: rest)) else none) := by
  by_cases hb : t0 = "exit" ∨ t0 = "quit"
  · by_cases hr : rest = [] <;> simp [dispatch, hb, hr]
  · by_cases hcd : t0 = "cd"
    · subst hcd
      cases rest with
      | nil => simp [dispatch, hb]
      | cons p rest' =>
        cases rest' with
        | nil => by_cases hc : env.chdirOk p <;> simp [dispatch, hb, hc]
        | cons b t => simp [dispatch, hb]
    · cases hres : resolve env.isExec t0 with
      | none => simp [dispatch, hb, hcd, hres]
      | some p => by_cases hf : env.forkOk <;> simp [dispatch, hb, hcd, hres, hf]

/-! ## Concrete environments for witnesses -/

/-- Every OS primitive succeeds. -/
def envAllOk : Env :=
  { isExec := fun _ => true, openOk := fun _ => true, chdirOk := fun _ => true,
    forkOk := true, execOk := fun _ => true }

/-- Every OS primitive fails. -/
def envNone : Env :=
  { isExec := fun _ => false, openOk := fun _ => false, chdirOk := fun _ => false,
    forkOk := false, execOk := fun _ => false }

/-- Only `/usr/bin/ls` is executable; everything else succeeds. -/
def envLs : Env :=
  { isExec := fun p => p == "/usr/bin/ls", openOk := fun _ => true,
    chdirOk := fun _ => true, forkOk := true, execOk := fun _ => true }

/-- `open` always fails; everything else succeeds. -/
def envOpenFail : Env :=
  { isExec := fun _ => true, openOk := fun _ => false, chdirOk := fun _ => true,
    forkOk := true, execOk := fun _ => true }

/-- `execv` always fails; everything else succeeds. -/
def envExecFail : Env :=
  { isExec := fun _ => true, openOk := fun _ => true, chdirOk := fun _ => true,
    forkOk := true, execOk := fun _ => false }

/-- `chdir` always fails; everything else succeeds. -/
def envChdirFail : Env :=
  { isExec := fun _ => true, openOk := fun _ => true, chdirOk := fun _ => false,
    forkOk := true, execOk := fun _ => true }

/-! ## Claim theorems -/

/-- C1: for every token sequence whose first token is not a built-in,
executable resolution considers exactly the four candidate paths obtained by
prefixing the command name with `/bin/`, `/usr/bin/`, `/usr/local/bin/` and
`./`, in that fixed order; the first candidate passing the
existence-and-executable test is the resolved path, and if none of the four
passes, resolution fails (`none`). -/
theorem c1_resolution_fixed_order (env : Env) (cwd t0 : String) (rest : List String)
    (h1 : t0 ≠ "exit") (h2 : t0 ≠ "quit") (h3 : t0 ≠ "cd") :
    (dispatch env cwd (t0 :: rest)).resolvedPath = resolve env.isExec t0 ∧
    resolve env.isExec t0 =
      (if env.isExec ("/bin/" ++ t0) then some ("/bin/" ++ t0)
       else if env.isExec ("/usr/bin/" ++ t0) then some ("/usr/bin/" ++ t0)
       else if env.isExec ("/usr/local/bin/" ++ t0) then some ("/usr/local/bin/" ++ t0)
       else if env.isExec ("./" ++ t0) then some ("./" ++ t0)
       else none) := by
  constructor
  · cases hres : resolve env.isExec t0 with
    | none => simp [dispatch, h1, h2, h3, hres]
    | some p => by_cases hf : env.forkOk <;> simp [dispatch, h1, h2, h3, hres, hf]
  · simp [resolve, searchPaths, resolveLoop]

/-- Witness for C1 at a concrete environment where only `/usr/bin/ls` is
executable. -/
theorem c1_witness :
    (dispatch envLs "/" ["ls"]).resolvedPath = resolve envLs.isExec "ls" ∧
    resolve envLs.isExec "ls" =
      (if envLs.isExec ("/bin/" ++ "ls") then some ("/bin/" ++ "ls")
       else if envLs.isExec ("/usr/bin/" ++ "ls") then some ("/usr/bin/" ++ "ls")
       else if envLs.isExec ("/usr/local/bin/" ++ "ls") then some ("/usr/local/bin/" ++ "ls")
       else if envLs.isExec ("./" ++ "ls") then some ("./" ++ "ls")
       else none) :=
  c1_resolution_fixed_order envLs "/" "ls" [] (by decide) (by decide) (by decide)

/-- C4: for every token sequence with first token `exit` or `quit`: with
exactly one token the whole process terminates with exit status 0; with more
tokens the interpreter reports the generic error, does not terminate, and
continues the loop (no child, no fork). -/
theorem c4_exit_quit (env : Env) (cwd t0 : String) (rest : List String)
    (hb : t0 = "exit" ∨ t0 = "quit") :
    (rest = [] → (dispatch env cwd (t0 :: rest)).shellExit = some 0) ∧
    (rest ≠ [] →
      (dispatch env cwd (t0 :: rest)).shellExit = none ∧
      (dispatch env cwd (t0 :: rest)).errReported = true ∧
      (dispatch env cwd (t0 :: rest)).forkCalled = false ∧
      (dispatch env cwd (t0 :: rest)).child = none) := by
  constructor
  · intro hr
    subst hr
    simp [dispatch, hb]
  · intro hr
    simp [dispatch, hb, hr]

/-- Witness for C4: `exit x` reports the error and continues. -/
theorem c4_witness :
    (dispatch envAllOk "/" ["exit", "x"]).shellExit = none ∧
    (dispatch envAllOk "/" ["exit", "x"]).errReported = true ∧
    (dispatch envAllOk "/" ["exit", "x"]).forkCalled = false ∧
    (dispatch envAllOk "/" ["exit", "x"]).child = none :=
  (c4_exit_quit envAllOk "/" "exit" ["x"] (Or.inl rfl)).2 (by decide)

/-- C5: for every token sequence with first token `cd`: with exactly two
tokens the interpreter attempts `chdir` on the second token, and on failure
reports the generic error with the working directory unchanged; with any
other token count it reports the generic error and never calls `chdir`. -/
theorem c5_cd (env : Env) (cwd : String) (rest : List String) :
    (∀ p, rest = [p] →
      (dispatch env cwd ("cd" :: rest)).chdirCalls = [p] ∧
      (env.chdirOk p = false →
        (dispatch env cwd ("cd" :: rest)).errReported = true ∧
        (dispatch env cwd ("cd" :: rest)).newCwd = cwd)) ∧
    ((∀ p, rest ≠ [p]) →
      (dispatch env cwd ("cd" :: rest)).errReported = true ∧
      (dispatch env cwd ("cd" :: rest)).chdirCalls = [] ∧
      (dispatch env cwd ("cd" :: rest)).newCwd = cwd) := by
  constructor
  · intro p hp
    subst hp
    by_cases hc : env.chdirOk p <;> simp [dispatch, hc]
  · intro h
    cases rest with
    | nil => simp [dispatch]
    | cons a rest' =>
      cases rest' with
      | nil => exact absurd rfl (h a)
      | cons b t => simp [dispatch]

/-- Witness for C5: `cd /nope` in an environment where `chdir` fails. -/
theorem c5_witness :
    (dispatch envChdirFail "/" ["cd", "/nope"]).chdirCalls = ["/nope"] ∧
    (dispatch envChdirFail "/" ["cd", "/nope"]).errReported = true ∧
    (dispatch envChdirFail "/" ["cd", "/nope"]).newCwd = "/" := by
  have h := (c5_cd envChdirFail "/" ["/nope"]).1 "/nope" rfl
  exact ⟨h.1, (h.2 rfl).1, (h.2 rfl).2⟩

/-- C8: for every non-built-in command name that resolves in none of the four
search locations, the interpreter reports the generic error and returns to
the loop without creating a child process: no fork, no child, no shell
exit. -/
theorem c8_no_child_on_resolution_failure (env : Env) (cwd t0 : String) (rest : List String)
    (h1 : t0 ≠ "exit") (h2 : t0 ≠ "quit") (h3 : t0 ≠ "cd")
    (hres : resolve env.isExec t0 = none) :
    (dispatch env cwd (t0 :: rest)).errReported = true ∧
    (dispatch env cwd (t0 :: rest)).forkCalled = false ∧
    (dispatch env cwd (t0 :: rest)).child = none ∧
    (dispatch env cwd (t0 :: rest)).shellExit = none := by
  simp [dispatch, h1, h2, h3, hres]

/-- Witness for C8: `nosuch` in an environment where nothing is executable. -/
theorem c8_witness :
    (dispatch envNone "/" ["nosuch"]).errReported = true ∧
    (dispatch envNone "/" ["nosuch"]).forkCalled = false ∧
    (dispatch envNone "/" ["nosuch"]).child = none ∧
    (dispatch envNone "/" ["nosuch"]).shellExit = none :=
  c8_no_child_on_resolution_failure envNone "/" "nosuch" []
    (by decide) (by decide) (by decide) (by decide)

/-- C2: for every token sequence with a well-formed redirection directive
(`>` exactly once, second-to-last), the child opens the target with
`O_RDWR ||| O_CREAT ||| O_TRUNC` (truncate if existing, create if not) and
mode `S_IRUSR ||| S_IWUSR` (owner read/write), points both stdout and
stderr at that file before `execv`, and the argument vector handed to
`execv` is exactly the tokens strictly before the `>` — so it contains
neither the `>` token nor the target-filename token. -/
theorem c2_wellformed_redirection (env : Env) (cmdPath : String) (pre : List String)
    (f : String) (hpre : ">" ∉ pre) (_hf : f ≠ ">") (hopen : env.openOk f = true) :
    (runChild env cmdPath (pre ++ [">", f])).openCalls =
      [⟨f, O_RDWR ||| O_CREAT ||| O_TRUNC, S_IRUSR ||| S_IWUSR⟩] ∧
    (runChild env cmdPath (pre ++ [">", f])).outDest = Dest.file f ∧
    (runChild env cmdPath (pre ++ [">", f])).errDest = Dest.file f ∧
    (runChild env cmdPath (pre ++ [">", f])).exec = some (cmdPath, pre) := by
  have hscan : redirScan [] (pre ++ [">", f]) = .redirect pre f := by
    simpa using redirScan_target pre f hpre []
  by_cases he : env.execOk cmdPath <;> simp [runChild, hscan, hopen, he]

/-- Witness for C2: `echo hi > out` with every primitive succeeding. -/
theorem c2_witness :
    (runChild envAllOk "/bin/echo" (["echo", "hi"] ++ [">", "out"])).openCalls =
      [⟨"out", O_RDWR ||| O_CREAT ||| O_TRUNC, S_IRUSR ||| S_IWUSR⟩] ∧
    (runChild envAllOk "/bin/echo" (["echo", "hi"] ++ [">", "out"])).outDest =
      Dest.file "out" ∧
    (runChild envAllOk "/bin/echo" (["echo", "hi"] ++ [">", "out"])).errDest =
      Dest.file "out" ∧
    (runChild envAllOk "/bin/echo" (["echo", "hi"] ++ [">", "out"])).exec =
      some ("/bin/echo", ["echo", "hi"]) :=
  c2_wellformed_redirection envAllOk "/bin/echo" ["echo", "hi"] "out"
    (by decide) (by decide) rfl

/-- Counterexample to C3 as stated: the token sequence `ls > >` contains more
than one `>` token, yet the child does not abort — it opens a file literally
named `>`, redirects into it, and loads the program image (`execv` is
reached and succeeds, so the child never exits with an error status). -/
theorem c3_counterexample :
    (["ls", ">", ">"] : List String).count ">" = 2 ∧
    (runChild envAllOk "/bin/ls" ["ls", ">", ">"]).exec = some ("/bin/ls", ["ls"]) ∧
    (runChild envAllOk "/bin/ls" ["ls", ">", ">"]).code = none ∧
    (runChild envAllOk "/bin/ls" ["ls", ">", ">"]).openCalls.map OpenCall.name = [">"] := by
  decide

/-- C3 (amended): for every token sequence whose first `>` token is not
followed by exactly one token (missing filename, or at least two tokens
after it), or whose single following token fails to open, the child reports
the generic error on the still-unredirected stderr and exits with status 1
without `execv` ever being invoked, and the parent still waits for and
reaps that child.  (A second `>` that is the single final token after the
first `>` is instead treated as the target filename.) -/
theorem c3_malformed_redirection_aborts_child (env : Env) (cwd p t0 : String)
    (pre post rest : List String) (hpre : ">" ∉ pre)
    (hmal : post = [] ∨ 2 ≤ post.length ∨ (∃ f, post = [f] ∧ env.openOk f = false))
    (htok : t0 :: rest = pre ++ ">" :: post)
    (h1 : t0 ≠ "exit") (h2 : t0 ≠ "quit") (h3 : t0 ≠ "cd")
    (hres : resolve env.isExec t0 = some p) (hfork : env.forkOk = true) :
    (dispatch env cwd (t0 :: rest)).child = some (runChild env p (t0 :: rest)) ∧
    (dispatch env cwd (t0 :: rest)).waitedChild = true ∧
    (runChild env p (t0 :: rest)).exec = none ∧
    (runChild env p (t0 :: rest)).code = some 1 ∧
    (runChild env p (t0 :: rest)).errWrites = [Dest.terminal] := by
  have hchild : runChild env p (t0 :: rest) =
      { openCalls := [], outDest := .terminal, errDest := .terminal,
        exec := none, code := some 1, errWrites := [.terminal] } := by
    rw [htok]
    rcases hmal with rfl | hlen | ⟨f, rfl, hopen⟩
    · have hscan := redirScan_missing pre hpre []
      simp only [runChild]
      rw [show pre ++ ">" :: ([] : List String) = pre ++ [">"] from rfl, hscan]
    · obtain ⟨a, b, t, rfl⟩ : ∃ a b t, post = a :: b :: t := by
        cases post with
        | nil => simp at hlen
        | cons a post' =>
          cases post' with
          | nil => simp at hlen
          | cons b t => exact ⟨a, b, t, rfl⟩
      have hscan := redirScan_extra pre a b t hpre []
      simp only [runChild]
      rw [hscan]
    · have hscan := redirScan_target pre f hpre []
      simp only [runChild]
      rw [show pre ++ ">" :: [f] = pre ++ [">", f] from rfl, hscan]
      simp [hopen]
  refine ⟨?_, ?_, ?_, ?_, ?_⟩ <;> simp [dispatch, h1, h2, h3, hres, hfork, hchild]

/-- Witness for C3 (amended): `ls >` (missing filename) in an environment
where `ls` resolves and `fork` succeeds. -/
theorem c3_witness :
    (dispatch envOpenFail "/" ["ls", ">"]).child =
      some (runChild envOpenFail "/bin/ls" ["ls", ">"]) ∧
    (dispatch envOpenFail "/" ["ls", ">"]).waitedChild = true ∧
    (runChild envOpenFail "/bin/ls" ["ls", ">"]).exec = none ∧
    (runChild envOpenFail "/bin/ls" ["ls", ">"]).code = some 1 ∧
    (runChild envOpenFail "/bin/ls" ["ls", ">"]).errWrites = [Dest.terminal] :=
  c3_malformed_redirection_aborts_child envOpenFail "/" "/bin/ls" "ls"
    ["ls"] [] [">"] (by decide) (Or.inl rfl) rfl
    (by decide) (by decide) (by decide) (by decide) rfl

/-- C10: for every command with a well-formed redirection whose target opens
successfully, a subsequent `execv` failure writes the generic error message
to the redirection target file (stderr was already redirected there), not to
the interpreter's original stderr, and the child exits with status 1. -/
theorem c10_exec_failure_error_goes_to_target (env : Env) (cmdPath : String)
    (pre : List String) (f : String) (hpre : ">" ∉ pre)
    (hopen : env.openOk f = true) (hexec : env.execOk cmdPath = false) :
    (runChild env cmdPath (pre ++ [">", f])).errWrites = [Dest.file f] ∧
    (runChild env cmdPath (pre ++ [">", f])).errDest = Dest.file f ∧
    (runChild env cmdPath (pre ++ [">", f])).code = some 1 := by
  have hscan : redirScan [] (pre ++ [">", f]) = .redirect pre f := by
    simpa using redirScan_target pre f hpre []
  simp [runChild, hscan, hopen, hexec]

/-- Witness for C10: `foo > out` where `execv` fails. -/
theorem c10_witness :
    (runChild envExecFail "/bin/foo" (["foo"] ++ [">", "out"])).errWrites =
      [Dest.file "out"] ∧
    (runChild envExecFail "/bin/foo" (["foo"] ++ [">", "out"])).errDest =
      Dest.file "out" ∧
    (runChild envExecFail "/bin/foo" (["foo"] ++ [">", "out"])).code = some 1 :=
  c10_exec_failure_error_goes_to_target envExecFail "/bin/foo" ["foo"] "out"
    (by decide) rfl rfl

/-- C6: for every non-empty input line, the tokenizer produces exactly the
non-empty whitespace-delimited fragments of the line in order, discarding
zero-length fragments from adjacent delimiters, keeping at most
`MAX_NUM_ARGUMENTS - 1 = 11` tokens (excess fragments silently dropped).
The `NULL` sentinel of the C token array corresponds to the list end. -/
theorem c6_tokenizer_fragments (line : List Char) (_hne : line ≠ []) :
    tokenize line =
      (((specSplit line).filter (fun f => f ≠ [])).map (fun f => String.mk f)).take
        (MAX_NUM_ARGUMENTS - 1) := by
  simpa [tokenize] using tokenizeLoop_spec line.length line (Nat.le_refl _) 0 []

/-- Witness for C6 at the line `a  b` (adjacent delimiters). -/
theorem c6_witness :
    ('a' :: ' ' :: ' ' :: 'b' :: []) ≠ ([] : List Char) ∧
    tokenize ('a' :: ' ' :: ' ' :: 'b' :: []) =
      (((specSplit ('a' :: ' ' :: ' ' :: 'b' :: [])).filter (fun f => f ≠ [])).map
        (fun f => String.mk f)).take (MAX_NUM_ARGUMENTS - 1) :=
  ⟨by decide, c6_tokenizer_fragments ('a' :: ' ' :: ' ' :: 'b' :: []) (by decide)⟩

/-- C7, evaluated at the failing input `exit x`: the iteration continues the
loop (no shell exit) and frees the duplicated token strings, but the
`strdup`-ed working string (`head_ptr`) is NOT freed on this path — msh.c
lines 128-145 free `token[i]` but never `head_ptr` on the `exit`/`quit`
usage-error branch, so the per-iteration working-string allocation leaks. -/
theorem c7_exit_usage_error_leaks_working_string :
    (dispatch envAllOk "/" ["exit", "x"]).shellExit = none ∧
    (dispatch envAllOk "/" ["exit", "x"]).errReported = true ∧
    (dispatch envAllOk "/" ["exit", "x"]).freedTokens = true ∧
    (dispatch envAllOk "/" ["exit", "x"]).freedHead = false := by
  decide

/-- C9: for every command line containing a `>` token, if the first token is
a built-in, or resolution fails, or `fork` fails, then no `open` call
happens during the iteration — the target file is never opened, created or
truncated, because the redirection scan runs only inside a successfully
forked child. -/
theorem c9_no_open_without_child (env : Env) (cwd : String) (tokens : List String)
    (_hgt : ">" ∈ tokens)
    (hcase : (∃ t0 rest, tokens = t0 :: rest ∧ (t0 = "exit" ∨ t0 = "quit" ∨ t0 = "cd")) ∨
             (∃ t0 rest, tokens = t0 :: rest ∧ resolve env.isExec t0 = none) ∨
             env.forkOk = false) :
    iterOpens (dispatch env cwd tokens) = [] := by
  cases tokens with
  | nil => simp [iterOpens, dispatch]
  | cons t0 rest =>
    suffices h : (dispatch env cwd (t0 :: rest)).child = none by
      simp [iterOpens, h]
    rw [dispatch_child_eq]
    rcases hcase with ⟨a, b, heq, hb⟩ | ⟨a, b, heq, hres⟩ | hfork
    · injection heq with e1 e2
      subst e1
      rcases hb with rfl | rfl | rfl <;> simp
    · injection heq with e1 e2
      subst e1
      by_cases hb : t0 = "exit" ∨ t0 = "quit"
      · simp [hb]
      · by_cases hcd : t0 = "cd"
        · simp [hb, hcd]
        · simp [hb, hcd, hres]
    · by_cases hb : t0 = "exit" ∨ t0 = "quit"
      · simp [hb]
      · by_cases hcd : t0 = "cd"
        · simp [hb, hcd]
        · cases hres : resolve env.isExec t0 <;> simp [hb, hcd, hres, hfork]

/-- Witness for C9: `cd > x` — a built-in with a `>` token never opens the
target. -/
theorem c9_witness : iterOpens (dispatch envAllOk "/" ["cd", ">", "x"]) = [] :=
  c9_no_open_without_child envAllOk "/" ["cd", ">", "x"] (by decide)
    (Or.inl ⟨"cd", [">", "x"], rfl, Or.inr (Or.inr rfl)⟩)

end Msh
